import Mathlib

/-!
Verification of the wip-pathtracer core (a recursive Monte-Carlo path
tracer written in Rust) via a shallow embedding in Lean 4.

Numbers: the source uses `f32`; the embedding uses exact rationals `ℚ`.
The two transcendental primitives of the source, `f32::sqrt` and
`f32::tan`, are passed as explicit function parameters `sqrt tan : ℚ → ℚ`
so that every definition stays computable; theorems that need an actual
property of the square root take it as a hypothesis (for instance
`sqrt 1 = 1`).

Randomness: `Simple::scatter` draws one uniform value `u ∈ [0,1)` and one
result of a rejection-sampling loop producing a unit vector; both draws
are passed as explicit arguments (`u : ℚ`, `rv : Vec3`), and theorems
quantify over them, i.e. they hold for every random draw.
-/

/-- `EPSILON` from `lib.rs`: `pub const EPSILON: f32 = 0.0001`. -/
def EPSILON : ℚ := 1 / 10000

/-- The 3-component vector type (`glam::Vec3A` in the source). -/
structure Vec3 where
  x : ℚ
  y : ℚ
  z : ℚ
deriving DecidableEq

instance : Add Vec3 where
  add a b := ⟨a.x + b.x, a.y + b.y, a.z + b.z⟩

instance : Sub Vec3 where
  sub a b := ⟨a.x - b.x, a.y - b.y, a.z - b.z⟩

instance : Neg Vec3 where
  neg a := ⟨-a.x, -a.y, -a.z⟩

/-- Component-wise product, `glam`'s `Vec3A * Vec3A`. -/
instance : Mul Vec3 where
  mul a b := ⟨a.x * b.x, a.y * b.y, a.z * b.z⟩

/-- Scalar multiplication, `glam`'s `f32 * Vec3A`. -/
instance : SMul ℚ Vec3 where
  smul a v := ⟨a * v.x, a * v.y, a * v.z⟩

def Vec3.ZERO : Vec3 := ⟨0, 0, 0⟩

def Vec3.X : Vec3 := ⟨1, 0, 0⟩

def Vec3.Y : Vec3 := ⟨0, 1, 0⟩

def Vec3.Z : Vec3 := ⟨0, 0, 1⟩

def Vec3.dot (a b : Vec3) : ℚ := a.x * b.x + a.y * b.y + a.z * b.z

def Vec3.length_squared (v : Vec3) : ℚ := v.dot v

/-- `glam` cross product. -/
def Vec3.cross (a b : Vec3) : Vec3 :=
  ⟨a.y * b.z - a.z * b.y, a.z * b.x - a.x * b.z, a.x * b.y - a.y * b.x⟩

/-- `glam` lerp: `self + ((rhs - self) * s)`. -/
def Vec3.lerp (a b : Vec3) (s : ℚ) : Vec3 := a + s • (b - a)

/-- `glam` normalize: `self * self.length_recip()`, with
`length = sqrt(length_squared)`. -/
def Vec3.normalize (sqrt : ℚ → ℚ) (v : Vec3) : Vec3 :=
  (1 / sqrt v.length_squared) • v

/-- `glam` try_normalize: computes the reciprocal of the length and
returns the scaled vector only when that reciprocal is positive (and
finite; finiteness is vacuous over `ℚ`). -/
def Vec3.try_normalize (sqrt : ℚ → ℚ) (v : Vec3) : Option Vec3 :=
  let rcp := 1 / sqrt v.length_squared
  if 0 < rcp then some (rcp • v) else none

/-- A ray (`common.rs`). The source's `Ray::new` asserts
`direction.is_normalized()`; the constructor itself just stores the
fields, which is what is embedded here. -/
structure Ray where
  point : Vec3
  direction : Vec3
deriving DecidableEq

/-- `Ray::new` (the stored fields; the normalization assert is a
precondition on callers, not part of the stored data). -/
def Ray.new (point direction : Vec3) : Ray := ⟨point, direction⟩

/-- `Ray::point_at_t`: `ray.point + ray.direction * t`. -/
def Ray.point_at_t (r : Ray) (t : ℚ) : Vec3 := r.point + t • r.direction

/-- A color (`common.rs`): a newtype over `Vec3`. -/
structure Color where
  vec : Vec3
deriving DecidableEq

def Color.to_vec3 (c : Color) : Vec3 := c.vec

/-- `Color::new` as written in the source: it asserts `r <= 1.0`,
`g <= 1.0` and `b <= 1.0` (and nothing else); `none` models a panic. -/
def Color.new (r g b : ℚ) : Option Color :=
  if r ≤ 1 then
    if g ≤ 1 then
      if b ≤ 1 then some ⟨⟨r, g, b⟩⟩ else none
    else none
  else none

/-- Channel-wise color product (`impl Mul for Color`). -/
instance : Mul Color where
  mul a b := ⟨a.vec * b.vec⟩

/-- An intersection of a ray with a shape (`shape.rs`). -/
structure Intersection where
  point : Vec3
  normal : Vec3
  t : ℚ
deriving DecidableEq

/-- A sphere shape (`shape.rs`). -/
structure Sphere where
  center : Vec3
  radius : ℚ
deriving DecidableEq

/-- `Sphere::normal`: `(point - self.center).try_normalize().unwrap_or(Vec3::Z)`. -/
def Sphere.normal (sqrt : ℚ → ℚ) (s : Sphere) (point : Vec3) : Vec3 :=
  (Vec3.try_normalize sqrt (point - s.center)).getD Vec3.Z

/-- `Sphere::intersection` (`impl Intersect for Sphere`), embedded
line by line from the source. -/
def Sphere.intersection (sqrt : ℚ → ℚ) (s : Sphere) (ray : Ray) :
    Option Intersection :=
  let p_minus_c := ray.point - s.center
  let b_halved := p_minus_c.dot ray.direction
  let c := p_minus_c.length_squared - s.radius * s.radius
  let delta_reduced := b_halved * b_halved - c
  if delta_reduced < 0 then none
  else
    let delta_sqrt_halved := sqrt delta_reduced
    let t1 := -b_halved + delta_sqrt_halved
    let t2 := -b_halved - delta_sqrt_halved
    let mm := if t1 < t2 then (t1, t2) else (t2, t1)
    let valid_t : Option ℚ :=
      if mm.1 ≥ EPSILON then some mm.1
      else if mm.2 ≥ EPSILON then some mm.2
      else none
    valid_t.map fun t =>
      let point := ray.point_at_t t
      { point := point, normal := s.normal sqrt point, t := t }

/-- A plane shape (`shape.rs`). `Plane::new` asserts
`normal.is_normalized()`; the constructor stores the fields. -/
structure Plane where
  point : Vec3
  normal : Vec3
deriving DecidableEq

def Plane.new (point normal : Vec3) : Plane := ⟨point, normal⟩

/-- `Plane::intersection` (`impl Intersect for Plane`), embedded from the
source: the parallel test is `dir_dot_normal.abs() > 0.0`. -/
def Plane.intersection (p : Plane) (ray : Ray) : Option Intersection :=
  let dir_dot_normal := ray.direction.dot p.normal
  if |dir_dot_normal| > 0 then
    let plane_point_minus_ray_point := p.point - ray.point
    let t := plane_point_minus_ray_point.dot p.normal / dir_dot_normal
    if t > EPSILON then
      some { point := ray.point_at_t t, normal := p.normal, t := t }
    else none
  else none

/-- The shape enum (`shape.rs`): `Sphere` or `Plane`. -/
inductive Shape where
  | sphere (s : Sphere)
  | plane (p : Plane)
deriving DecidableEq

/-- `enum_dispatch` of `Intersect::intersection` over the two variants. -/
def Shape.intersection (sqrt : ℚ → ℚ) : Shape → Ray → Option Intersection
  | .sphere s, ray => s.intersection sqrt ray
  | .plane p, ray => p.intersection ray

/-- The `Material` trait (`material.rs`): an arbitrary implementation is
a pair of functions. Randomness drawn inside a concrete `scatter` is
resolved, so a `Material` value represents one realization of the
scattering behavior; theorems quantify over all of them. -/
structure Material where
  scatter : Ray → Vec3 → Vec3 → Ray
  color : Vec3 → Vec3 → Color

/-- The `Simple` material (`material.rs`). -/
structure Simple where
  color : Color
  diffuse : ℚ
  fuzzyness : ℚ

/-- `Simple::scatter`, with its two random draws passed explicitly:
`u` is `rng.gen_range(0.0..1.0)` and `rv` is the unit vector produced by
the `random_vec_unit_sphere` rejection-sampling loop (only one of the two
branches consumes it). -/
def Simple.scatter (sqrt : ℚ → ℚ) (m : Simple) (u : ℚ) (rv : Vec3)
    (ray : Ray) (point normal : Vec3) : Ray :=
  if m.diffuse > u then
    let center := point + normal
    let dir := Vec3.normalize sqrt ((center + rv) - point)
    Ray.new point dir
  else
    let factor := 2 * ray.direction.dot normal
    let dir := ray.direction - factor • normal
    let fuzz := m.fuzzyness • rv
    Ray.new point (Vec3.normalize sqrt (dir + fuzz))

/-- `Simple`'s `Material::color`: the fixed albedo, ignoring the point
and the normal. -/
def Simple.material_color (m : Simple) (_point _normal : Vec3) : Color :=
  m.color

/-- A light in a scene (`light.rs`). -/
structure Light where
  shape : Shape
  color : Color
  intensity : ℚ

/-- `Light::new`: stores the three fields, with no check of any kind. -/
def Light.new (shape : Shape) (color : Color) (intensity : ℚ) : Light :=
  ⟨shape, color, intensity⟩

/-- A radiance sample (`light.rs`). -/
structure LightRay where
  color : Color
  intensity : ℚ
deriving DecidableEq

/-- `Light::light_ray`. -/
def Light.light_ray (l : Light) : LightRay := ⟨l.color, l.intensity⟩

/-- `LightRay::to_sample`: `color.to_vec3() * intensity`. -/
def LightRay.to_sample (lr : LightRay) : Vec3 :=
  lr.intensity • lr.color.to_vec3

/-- An object (`object.rs`): a shape with a material. -/
structure Object where
  shape : Shape
  material : Material

/-- The view plane corners (`render.rs`). -/
structure ViewPlane where
  top_left : Vec3
  top_right : Vec3
  bottom_left : Vec3
  bottom_right : Vec3

/-- A camera (`render.rs`). `Camera::new` asserts `0 ≤ fov < 2π` and
that `direction` is normalized; the constructor stores the fields. -/
structure Camera where
  position : Vec3
  direction : Vec3
  fov : ℚ
  aspect_ratio : ℚ

/-- `Camera::x_axis`: `Vec3::Y.cross(direction).try_normalize().unwrap_or(Vec3::X)`. -/
def Camera.x_axis (sqrt : ℚ → ℚ) (c : Camera) : Vec3 :=
  (Vec3.try_normalize sqrt (Vec3.cross Vec3.Y c.direction)).getD Vec3.X

/-- `Camera::y_axis`: `direction.cross(x_axis).try_normalize().unwrap_or(Vec3::Y)`. -/
def Camera.y_axis (sqrt : ℚ → ℚ) (c : Camera) : Vec3 :=
  (Vec3.try_normalize sqrt (Vec3.cross c.direction (c.x_axis sqrt))).getD Vec3.Y

/-- `Camera::z_axis`: the direction. -/
def Camera.z_axis (c : Camera) : Vec3 := c.direction

/-- `Camera::plane`, embedded from the source; `tan` is `f32::tan`. -/
def Camera.plane (sqrt tan : ℚ → ℚ) (c : Camera) : ViewPlane :=
  let plane_center := c.position + c.z_axis
  let half_height := tan (c.fov / 2)
  let half_width := half_height * c.aspect_ratio
  let top_center := plane_center + half_height • c.y_axis sqrt
  let top_left := top_center - half_width • c.x_axis sqrt
  let top_right := top_center + half_width • c.x_axis sqrt
  let bottom_center := plane_center - half_height • c.y_axis sqrt
  let bottom_left := bottom_center - half_width • c.x_axis sqrt
  let bottom_right := bottom_center + half_width • c.x_axis sqrt
  ⟨top_left, top_right, bottom_left, bottom_right⟩

/-- A scene (`render.rs`). -/
structure Scene where
  camera : Camera
  objects : List Object
  lights : List Light

/-- The renderer configuration (`render.rs`). -/
structure Renderer where
  sample_count : ℕ
  indirect_count : ℕ
  max_value : ℚ
  ambient_light : LightRay

/-- Rust's `Iterator::min_by_key`: the first element with the minimum
key, or `None` on an empty iterator. A left fold that replaces the
current best only on a strictly smaller key returns exactly the first
minimum. -/
def min_by_t {α : Type} : List (α × Intersection) → Option (α × Intersection)
  | [] => none
  | x :: xs => some (xs.foldl (fun best yy => if yy.2.t < best.2.t then yy else best) x)

/-- The `closest_hit_object` computation inside `Renderer::trace_ray`:
filter-map every object through its shape's intersection test, then take
the minimum by `t`. -/
def closest_hit_object (sqrt : ℚ → ℚ) (scene : Scene) (ray : Ray) :
    Option (Object × Intersection) :=
  min_by_t (scene.objects.filterMap fun obj =>
    (obj.shape.intersection sqrt ray).map fun i => (obj, i))

/-- The `closest_hit_light` computation inside `Renderer::trace_ray`. -/
def closest_hit_light (sqrt : ℚ → ℚ) (scene : Scene) (ray : Ray) :
    Option (Light × Intersection) :=
  min_by_t (scene.lights.filterMap fun light =>
    (light.shape.intersection sqrt ray).map fun i => (light, i))

/-- `Renderer::trace_ray`, embedded from the source. The recursion is
structural on `depth`. -/
def Renderer.trace_ray (rend : Renderer) (sqrt : ℚ → ℚ) (scene : Scene)
    (ray : Ray) (depth : ℕ) : LightRay :=
  match depth with
  | 0 => rend.ambient_light
  | d + 1 =>
    let obj_color := fun (obj : Object) (intersection : Intersection) =>
      let new_ray := obj.material.scatter ray intersection.point intersection.normal
      let light_ray := rend.trace_ray sqrt scene new_ray d
      let mat_color := obj.material.color intersection.point intersection.normal
      LightRay.mk (light_ray.color * mat_color) light_ray.intensity
    match closest_hit_light sqrt scene ray, closest_hit_object sqrt scene ray with
    | none, none => rend.ambient_light
    | none, some (obj, intersection) => obj_color obj intersection
    | some (light, _), none => light.light_ray
    | some (light, light_intersection), some (obj, obj_intersection) =>
      if light_intersection.t < obj_intersection.t then light.light_ray
      else obj_color obj obj_intersection

/-- The number of recursive `trace_ray` calls nested below a call with
the given depth budget: it mirrors `trace_ray` case by case, adding 1
for the call itself and recursing exactly where `trace_ray` does. -/
def Renderer.trace_depth_used (rend : Renderer) (sqrt : ℚ → ℚ) (scene : Scene)
    (ray : Ray) (depth : ℕ) : ℕ :=
  match depth with
  | 0 => 0
  | d + 1 =>
    match closest_hit_light sqrt scene ray, closest_hit_object sqrt scene ray with
    | none, none => 1
    | none, some (obj, intersection) =>
      1 + rend.trace_depth_used sqrt scene
        (obj.material.scatter ray intersection.point intersection.normal) d
    | some _, none => 1
    | some (_, light_intersection), some (obj, obj_intersection) =>
      if light_intersection.t < obj_intersection.t then 1
      else 1 + rend.trace_depth_used sqrt scene
        (obj.material.scatter ray obj_intersection.point obj_intersection.normal) d

/-- The per-sample trace performed by `Renderer::render`:
`self.trace_ray(ray, scene, self.indirect_count + 1)`. -/
def Renderer.sample_trace (rend : Renderer) (sqrt : ℚ → ℚ) (scene : Scene)
    (ray : Ray) : LightRay :=
  rend.trace_ray sqrt scene ray (rend.indirect_count + 1)

/-- The pre-tone-mapping pixel value computed by the nested loops of
`Renderer::render`: the primary ray is interpolated once per pixel and
each of `sample_count` samples accumulates a traced radiance sample,
then the sum is divided by `sample_count`. -/
def Renderer.render_pixel_raw (rend : Renderer) (sqrt tan : ℚ → ℚ)
    (scene : Scene) (width height x y : ℕ) : Vec3 :=
  let plane := scene.camera.plane sqrt tan
  let y_t := (y : ℚ) / (height : ℚ)
  let x_t := (x : ℚ) / (width : ℚ)
  let plane_point_top := plane.top_left.lerp plane.top_right x_t
  let plane_point_bottom := plane.bottom_left.lerp plane.bottom_right x_t
  let plane_point := plane_point_top.lerp plane_point_bottom y_t
  let direction := Vec3.normalize sqrt (plane_point - scene.camera.position)
  let ray := Ray.new plane_point direction
  let channels := (List.range rend.sample_count).foldl
    (fun acc _ => acc + (rend.sample_trace sqrt scene ray).to_sample) Vec3.ZERO
  (1 / (rend.sample_count : ℚ)) • channels

/-- Rust's `f32::clamp(min, max)` on non-NaN input: below `lo` gives
`lo`, above `hi` gives `hi`, otherwise the value itself. -/
def rust_clamp (v lo hi : ℚ) : ℚ :=
  if v < lo then lo else if v > hi then hi else v

/-- The final pixel written by `Renderer::render`: the raw pixel value,
then the display transform `(channel / max_value).clamp(0.0, 1.0)`
applied to every channel. -/
def Renderer.render_pixel (rend : Renderer) (sqrt tan : ℚ → ℚ)
    (scene : Scene) (width height x y : ℕ) : Vec3 :=
  let raw := rend.render_pixel_raw sqrt tan scene width height x y
  ⟨rust_clamp (raw.x / rend.max_value) 0 1,
   rust_clamp (raw.y / rend.max_value) 0 1,
   rust_clamp (raw.z / rend.max_value) 0 1⟩

/-- Sphere intersection written from the spec's words (§4.1): reduced
quadratic `h`, `c`, `disc`; no hit for `disc < 0`; otherwise the sorted
roots; accept `tmin` if `tmin ≥ EPSILON`, else `tmax` if
`tmax ≥ EPSILON`, else no hit; the normal is the normalized vector from
the center to the hit point with the fixed default axis `Vec3::Z` on
degeneracy. Used only to compare against `Sphere.intersection`. -/
def sphere_intersection_spec (sqrt : ℚ → ℚ) (s : Sphere) (ray : Ray) :
    Option Intersection :=
  let h := (ray.point - s.center).dot ray.direction
  let c := (ray.point - s.center).length_squared - s.radius * s.radius
  let disc := h * h - c
  if disc < 0 then none
  else
    let t1 := -h + sqrt disc
    let t2 := -h - sqrt disc
    let tmin := min t1 t2
    let tmax := max t1 t2
    if tmin ≥ EPSILON then
      some { point := ray.point_at_t tmin,
             normal := (Vec3.try_normalize sqrt (ray.point_at_t tmin - s.center)).getD Vec3.Z,
             t := tmin }
    else if tmax ≥ EPSILON then
      some { point := ray.point_at_t tmax,
             normal := (Vec3.try_normalize sqrt (ray.point_at_t tmax - s.center)).getD Vec3.Z,
             t := tmax }
    else none

/-- Plane intersection written from the spec's words (§4.1): no hit
exactly when `D·N = 0`; otherwise `t = ((Q−P)·N)/(D·N)`, accepted only
when `t > EPSILON`, returning the plane's stored normal unflipped. Used
only to compare against `Plane.intersection`. -/
def plane_intersection_spec (p : Plane) (ray : Ray) : Option Intersection :=
  let dn := ray.direction.dot p.normal
  if dn = 0 then none
  else
    let t := (p.point - ray.point).dot p.normal / dn
    if t > EPSILON then
      some { point := ray.point_at_t t, normal := p.normal, t := t }
    else none

/-- A concrete square-root function for witnesses; only its value at 1
is ever relied upon. -/
def sqrt0 : ℚ → ℚ := fun q => if q = 1 then 1 else 0

/-- A concrete tangent function for witnesses. -/
def tan0 : ℚ → ℚ := fun _ => 1

def black_light : LightRay := ⟨⟨⟨0, 0, 0⟩⟩, 0⟩

def cam0 : Camera := ⟨⟨0, 0, 0⟩, ⟨0, 0, 1⟩, 1, 1⟩

def rend0 : Renderer := ⟨1, 0, 1, black_light⟩

/-- A scene with no objects and no lights. -/
def scene0 : Scene := ⟨cam0, [], []⟩

def ray0 : Ray := Ray.new ⟨0, 0, 0⟩ ⟨0, 0, 1⟩

/-- Witness fixtures for the intersection claims: a unit sphere at the
origin and a ray approaching it along the z axis from `z = -3`. -/
def sphere1 : Sphere := ⟨⟨0, 0, 0⟩, 1⟩

def ray1 : Ray := Ray.new ⟨0, 0, -3⟩ ⟨0, 0, 1⟩

def inter1 : Intersection := ⟨⟨0, 0, -1⟩, ⟨0, 0, -1⟩, 2⟩

/-- Witness fixtures for the mirror-material claim. -/
def m0 : Simple := ⟨⟨⟨1, 1, 1⟩⟩, 0, 0⟩

def ray2 : Ray := Ray.new ⟨0, 0, 0⟩ ⟨1, 0, 0⟩

def n0 : Vec3 := ⟨1, 0, 0⟩

def rv0 : Vec3 := ⟨0, 0, 0⟩

theorem Vec3.add_def (a b : Vec3) : a + b = ⟨a.x + b.x, a.y + b.y, a.z + b.z⟩ := rfl

theorem Vec3.sub_def (a b : Vec3) : a - b = ⟨a.x - b.x, a.y - b.y, a.z - b.z⟩ := rfl

theorem Vec3.smul_def (q : ℚ) (v : Vec3) : q • v = ⟨q * v.x, q * v.y, q * v.z⟩ := rfl

theorem Vec3.mul_def (a b : Vec3) : a * b = ⟨a.x * b.x, a.y * b.y, a.z * b.z⟩ := rfl

theorem Vec3.one_smul_eq (v : Vec3) : (1 : ℚ) • v = v := by
  rcases v with ⟨a, b, c⟩
  simp [Vec3.smul_def]

theorem rust_clamp_mem (v : ℚ) : 0 ≤ rust_clamp v 0 1 ∧ rust_clamp v 0 1 ≤ 1 := by
  unfold rust_clamp
  split_ifs with h1 h2 <;> constructor <;> linarith

theorem trace_depth_used_le (rend : Renderer) (sqrt : ℚ → ℚ) (scene : Scene) :
    ∀ (depth : ℕ) (ray : Ray),
      rend.trace_depth_used sqrt scene ray depth ≤ depth := by
  intro depth
  induction depth with
  | zero => intro ray; simp [Renderer.trace_depth_used]
  | succ d ih =>
    intro ray
    unfold Renderer.trace_depth_used
    rcases closest_hit_light sqrt scene ray with _ | ⟨light, li⟩ <;>
      rcases closest_hit_object sqrt scene ray with _ | ⟨obj, oi⟩ <;>
      dsimp only
    · omega
    · have := ih (obj.material.scatter ray oi.point oi.normal)
      omega
    · omega
    · split
      · omega
      · have := ih (obj.material.scatter ray oi.point oi.normal)
        omega

/-- C9: for every renderer configuration, square-root realization,
scene and ray, `trace_ray` at depth 0 returns exactly the configured
`ambient_light`. -/
theorem trace_ray_depth_zero_ambient (rend : Renderer) (sqrt : ℚ → ℚ)
    (scene : Scene) (ray : Ray) :
    rend.trace_ray sqrt scene ray 0 = rend.ambient_light := rfl

/-- C10: for every shape, color and intensity (negative ones included),
`Light::new` succeeds and stores exactly its arguments, with no check of
the `intensity ≥ 0` data-model invariant, and `light_ray` reproduces the
stored color and intensity unchanged. -/
theorem light_new_stores_fields (shape : Shape) (color : Color) (intensity : ℚ) :
    Light.new shape color intensity = Light.mk shape color intensity ∧
    (Light.new shape color intensity).light_ray = LightRay.mk color intensity :=
  ⟨rfl, rfl⟩

/-- C7 (divergence evidence): `Color::new` with a negative red channel
succeeds in the code — its asserts only check the upper bound of each
channel — although the function's own documentation promises a panic for
any channel outside `[0,1]`. -/
theorem color_new_accepts_negative_channel :
    Color.new (-(1 / 2)) 0 0 = some ⟨⟨-(1 / 2), 0, 0⟩⟩ := by
  norm_num [Color.new]

/-- C5: the recursion of `trace_ray` is structurally bounded: the number
of nested recursive calls below a call with budget `depth` never exceeds
`depth` (each recursive call passes `depth - 1`, depth 0 recurses no
further and returns `ambient_light`), and the per-sample invocation made
by `render` runs at depth `indirect_count + 1`. -/
theorem trace_ray_depth_bounded (rend : Renderer) (sqrt : ℚ → ℚ)
    (scene : Scene) (ray : Ray) (depth : ℕ) :
    rend.trace_depth_used sqrt scene ray depth ≤ depth ∧
    rend.sample_trace sqrt scene ray =
      rend.trace_ray sqrt scene ray (rend.indirect_count + 1) ∧
    rend.trace_ray sqrt scene ray 0 = rend.ambient_light :=
  ⟨trace_depth_used_le rend sqrt scene depth ray, rfl, rfl⟩

/-- C1: for every scene and every positive depth `d + 1`, `trace_ray`
resolves by cases on the two independent closest hits: ambient light
when neither exists; the light's emission (its stored color and
intensity, regardless of any geometry behind it) when only a light is
hit; the object-scatter rule (scatter via the material, recurse at
depth `d`, tint the recursive color channel-wise by the albedo, keep
the recursive intensity) when only an object is hit; and, when both are
hit, the light's emission exactly when the light's `t` is strictly
smaller, otherwise the object-scatter rule. -/
theorem trace_ray_case_resolution (rend : Renderer) (sqrt : ℚ → ℚ)
    (scene : Scene) (ray : Ray) (d : ℕ) :
    (closest_hit_light sqrt scene ray = none →
      closest_hit_object sqrt scene ray = none →
      rend.trace_ray sqrt scene ray (d + 1) = rend.ambient_light) ∧
    (∀ light li, closest_hit_light sqrt scene ray = some (light, li) →
      closest_hit_object sqrt scene ray = none →
      rend.trace_ray sqrt scene ray (d + 1) = light.light_ray) ∧
    (∀ obj oi, closest_hit_light sqrt scene ray = none →
      closest_hit_object sqrt scene ray = some (obj, oi) →
      rend.trace_ray sqrt scene ray (d + 1) =
        LightRay.mk
          ((rend.trace_ray sqrt scene
              (obj.material.scatter ray oi.point oi.normal) d).color *
            obj.material.color oi.point oi.normal)
          (rend.trace_ray sqrt scene
              (obj.material.scatter ray oi.point oi.normal) d).intensity) ∧
    (∀ light li obj oi, closest_hit_light sqrt scene ray = some (light, li) →
      closest_hit_object sqrt scene ray = some (obj, oi) →
      rend.trace_ray sqrt scene ray (d + 1) =
        if li.t < oi.t then light.light_ray
        else
          LightRay.mk
            ((rend.trace_ray sqrt scene
                (obj.material.scatter ray oi.point oi.normal) d).color *
              obj.material.color oi.point oi.normal)
            (rend.trace_ray sqrt scene
                (obj.material.scatter ray oi.point oi.normal) d).intensity) := by
  refine ⟨?_, ?_, ?_, ?_⟩
  · intro h1 h2
    conv_lhs => rw [Renderer.trace_ray]
    rw [h1, h2]
  · intro light li h1 h2
    conv_lhs => rw [Renderer.trace_ray]
    rw [h1, h2]
  · intro obj oi h1 h2
    conv_lhs => rw [Renderer.trace_ray]
    rw [h1, h2]
  · intro light li obj oi h1 h2
    conv_lhs => rw [Renderer.trace_ray]
    rw [h1, h2]

/-- Witness for C1: a scene with no objects and no lights makes both
closest-hit computations `none`, and the theorem then yields the
ambient light at depth 1. -/
theorem trace_ray_case_resolution_witness :
    closest_hit_light sqrt0 scene0 ray0 = none ∧
    closest_hit_object sqrt0 scene0 ray0 = none ∧
    Renderer.trace_ray rend0 sqrt0 scene0 ray0 1 = rend0.ambient_light :=
  ⟨rfl, rfl, (trace_ray_case_resolution rend0 sqrt0 scene0 ray0 0).1 rfl rfl⟩

theorem sort_pair (t1 t2 : ℚ) :
    (if t1 < t2 then (t1, t2) else (t2, t1)) = (min t1 t2, max t1 t2) := by
  split_ifs with h
  · rw [min_eq_left h.le, max_eq_right h.le]
  · push_neg at h
    rw [min_eq_right h, max_eq_left h]

/-- C2: `Sphere::intersection` computes exactly what the spec
describes: the reduced quadratic `h`, `c`, `disc = h² − c`; no hit when
`disc < 0`; otherwise it accepts the smaller sorted root if it is at
least `EPSILON`, else the larger if it is at least `EPSILON`, else
nothing, and the returned normal is the normalized center-to-hit-point
vector with the fixed default axis on degeneracy. -/
theorem sphere_intersection_matches_spec (sqrt : ℚ → ℚ) (s : Sphere) (ray : Ray) :
    s.intersection sqrt ray = sphere_intersection_spec sqrt s ray := by
  unfold Sphere.intersection sphere_intersection_spec
  simp only [sort_pair]
  split_ifs <;> simp_all [Sphere.normal]

/-- C3: `Plane::intersection` computes exactly what the spec describes:
no hit exactly when `D·N = 0` (the source's `|D·N| > 0` test), otherwise
`t = ((Q−P)·N)/(D·N)` accepted if and only if `t > EPSILON`, with the
plane's stored normal returned unflipped. -/
theorem plane_intersection_matches_spec (p : Plane) (ray : Ray) :
    p.intersection ray = plane_intersection_spec p ray := by
  unfold Plane.intersection plane_intersection_spec
  by_cases h : ray.direction.dot p.normal = 0
  · simp [h]
  · have habs : |ray.direction.dot p.normal| > 0 := abs_pos.mpr h
    simp [h, habs]

theorem sphere_intersection_t_ge (sqrt : ℚ → ℚ) (s : Sphere) (ray : Ray)
    (i : Intersection) (h : s.intersection sqrt ray = some i) :
    EPSILON ≤ i.t := by
  simp only [Sphere.intersection, sort_pair] at h
  split at h
  · exact Option.noConfusion h
  · rw [Option.map_eq_some'] at h
    obtain ⟨t, ht, hit⟩ := h
    have hti : i.t = t := by rw [← hit]
    rw [hti]
    split at ht
    · rename_i hge
      injection ht with h2
      rw [← h2]
      exact hge
    · split at ht
      · rename_i hge
        injection ht with h2
        rw [← h2]
        exact hge
      · exact Option.noConfusion ht

theorem plane_intersection_t_gt (p : Plane) (ray : Ray) (i : Intersection)
    (h : p.intersection ray = some i) : EPSILON < i.t := by
  simp only [Plane.intersection] at h
  split at h
  · split at h
    · rename_i hgt
      injection h with h2
      rw [← h2]
      exact hgt
    · exact Option.noConfusion h
  · exact Option.noConfusion h

/-- C8: whenever the intersection test of either shape variant returns
a hit, the hit's ray parameter is at least the shared `EPSILON`
constant, hence strictly positive. -/
theorem shape_intersection_t_ge_epsilon (sqrt : ℚ → ℚ) (shape : Shape)
    (ray : Ray) (i : Intersection)
    (h : shape.intersection sqrt ray = some i) :
    EPSILON ≤ i.t ∧ 0 < i.t := by
  have heps : (0 : ℚ) < EPSILON := by norm_num [EPSILON]
  cases shape with
  | sphere s =>
    have h1 := sphere_intersection_t_ge sqrt s ray i h
    exact ⟨h1, lt_of_lt_of_le heps h1⟩
  | plane p =>
    have h1 := plane_intersection_t_gt p ray i h
    exact ⟨h1.le, heps.trans h1⟩

/-- Witness for C8: the unit sphere at the origin hit by a ray from
`z = -3` along `+z` yields the hit `t = 2`, which is at least
`EPSILON` and positive. -/
theorem shape_intersection_t_ge_epsilon_witness :
    Shape.intersection sqrt0 (Shape.sphere sphere1) ray1 = some inter1 ∧
    EPSILON ≤ inter1.t ∧ 0 < inter1.t := by
  have hsi : Shape.intersection sqrt0 (Shape.sphere sphere1) ray1 = some inter1 := by
    norm_num [Shape.intersection, Sphere.intersection, sphere1, ray1, inter1,
      Ray.new, Vec3.sub_def, Vec3.dot, Vec3.length_squared, EPSILON, sqrt0,
      Sphere.normal, Vec3.try_normalize, Vec3.smul_def, Ray.point_at_t,
      Vec3.add_def]
  exact ⟨hsi,
    (shape_intersection_t_ge_epsilon sqrt0 (Shape.sphere sphere1) ray1 inter1 hsi).1,
    (shape_intersection_t_ge_epsilon sqrt0 (Shape.sphere sphere1) ray1 inter1 hsi).2⟩

/-- C4: after `render`, every channel of every pixel lies in `[0,1]`:
the final display transform divides by `max_value` and clamps each
channel, for every scene, configuration and pixel coordinate. -/
theorem render_output_in_unit_interval (rend : Renderer) (sqrt tan : ℚ → ℚ)
    (scene : Scene) (width height x y : ℕ) :
    0 ≤ (rend.render_pixel sqrt tan scene width height x y).x ∧
    (rend.render_pixel sqrt tan scene width height x y).x ≤ 1 ∧
    0 ≤ (rend.render_pixel sqrt tan scene width height x y).y ∧
    (rend.render_pixel sqrt tan scene width height x y).y ≤ 1 ∧
    0 ≤ (rend.render_pixel sqrt tan scene width height x y).z ∧
    (rend.render_pixel sqrt tan scene width height x y).z ≤ 1 := by
  refine ⟨?_, ?_, ?_, ?_, ?_, ?_⟩ <;>
    first
      | exact (rust_clamp_mem _).1
      | exact (rust_clamp_mem _).2

/-- C6: for a `Simple` material with `diffuse = 0` and `fuzzyness = 0`,
every `scatter` call — for every random draw `u ∈ [0,1)` and `rv`, every
incoming unit direction and every unit normal — takes the specular
branch and returns the exact mirror reflection `d − 2(d·n)n`, of unit
length (stated exactly: its squared length is 1). -/
theorem simple_scatter_mirror_reflection (sqrt : ℚ → ℚ) (m : Simple)
    (u : ℚ) (rv : Vec3) (ray : Ray) (point normal : Vec3)
    (hdif : m.diffuse = 0) (hfuz : m.fuzzyness = 0) (hu : 0 ≤ u)
    (hray : ray.direction.length_squared = 1)
    (hnorm : normal.length_squared = 1) (hsqrt : sqrt 1 = 1) :
    (Simple.scatter sqrt m u rv ray point normal).direction =
      ray.direction - (2 * ray.direction.dot normal) • normal ∧
    (Simple.scatter sqrt m u rv ray point normal).direction.length_squared
      = 1 := by
  have hbranch : ¬ m.diffuse > u := by
    rw [hdif]
    exact not_lt.mpr hu
  have hvec : (ray.direction - (2 * ray.direction.dot normal) • normal)
      + m.fuzzyness • rv
      = ray.direction - (2 * ray.direction.dot normal) • normal := by
    rw [hfuz]
    simp [Vec3.sub_def, Vec3.smul_def, Vec3.add_def]
  have hls : (ray.direction - (2 * ray.direction.dot normal) • normal).length_squared
      = 1 := by
    simp only [Vec3.length_squared, Vec3.dot, Vec3.sub_def, Vec3.smul_def] at hray hnorm ⊢
    linear_combination hray +
      (4 * (ray.direction.x * normal.x + ray.direction.y * normal.y +
        ray.direction.z * normal.z) ^ 2) * hnorm
  have hdir : (Simple.scatter sqrt m u rv ray point normal).direction =
      ray.direction - (2 * ray.direction.dot normal) • normal := by
    unfold Simple.scatter
    rw [if_neg hbranch]
    show Vec3.normalize sqrt
      ((ray.direction - (2 * ray.direction.dot normal) • normal) + m.fuzzyness • rv) = _
    rw [hvec]
    unfold Vec3.normalize
    rw [hls, hsqrt]
    norm_num [Vec3.one_smul_eq]
  refine ⟨hdir, ?_⟩
  rw [hdir]
  exact hls

/-- Witness for C6: a perfect mirror (`diffuse = 0`, `fuzzyness = 0`)
hit along `+x` on a surface with normal `+x` reflects to `−x`, with
unit squared length. -/
theorem simple_scatter_mirror_reflection_witness :
    (0 : ℚ) ≤ 0 ∧ sqrt0 1 = 1 ∧
    (Simple.scatter sqrt0 m0 0 rv0 ray2 Vec3.ZERO n0).direction =
      ray2.direction - (2 * ray2.direction.dot n0) • n0 ∧
    (Simple.scatter sqrt0 m0 0 rv0 ray2 Vec3.ZERO n0).direction.length_squared
      = 1 := by
  have h := simple_scatter_mirror_reflection sqrt0 m0 0 rv0 ray2 Vec3.ZERO n0
    rfl rfl le_rfl
    (by norm_num [ray2, Ray.new, Vec3.length_squared, Vec3.dot])
    (by norm_num [n0, Vec3.length_squared, Vec3.dot])
    (by norm_num [sqrt0])
  exact ⟨le_rfl, by norm_num [sqrt0], h.1, h.2⟩
